import Mathlib

/-!
Verification of the Realtime-Gmail-Listener relay core.

This file shallowly embeds the Apps Script relay logic
(`processNewEmails`, `pullEmailsSince`, `getHeader`, `SheetLayout.getDataMap`,
`doPost`) and proves properties about cursor handling, error handling and
the sheet projection.

Modelling conventions:
* JavaScript runtime values that flow through the POST payload are modelled
  by the inductive `JSValue` (with `jundefined` for `undefined`).
* `SCRIPT_PROPS` is modelled by `Store`, holding the `lastHistoryId` property.
* The Gmail API is modelled by `Env`: `pages` is the sequence of results the
  successive `Gmail.Users.History.list` calls of one run produce (an
  `Except.error` entry models the listing call throwing), and `getMsg` models
  `Gmail.Users.Messages.get` (error = the per-item lookup throws).
  Exhausting `pages` while a next-page token is still pending is modelled as
  a failed listing call.
* Observable side effects of a run are collected in an ordered trace of `Ev`
  events.
* Code that throws an uncaught exception is modelled with `Except Unit`.
-/

namespace GmailListener

/-- JavaScript values, as far as the relay inspects them. -/
inductive JSValue where
  | jundefined
  | jnull
  | jbool (b : Bool)
  | jnum (n : Int)
  | jstr (s : String)
  | jarr (elems : List JSValue)
  | jobj (fields : List (String × JSValue))
  | jfun

/-- Property access `v[key]`; missing properties read as `undefined`.
(Prototype-inherited properties are not modelled.) -/
def jsGet (v : JSValue) (key : String) : JSValue :=
  match v with
  | .jobj fields => (fields.lookup key).getD .jundefined
  | _ => .jundefined

/-- `isObject` from utils.gs: `Object.prototype.toString.call(obj) === '[object Object]'`:
true exactly for plain objects (not null, not array, not function). -/
def isObject (v : JSValue) : Bool :=
  match v with
  | .jobj _ => true
  | _ => false

/-- `Object.prototype.hasOwnProperty.call(data, field)`. -/
def hasOwnProperty (v : JSValue) (field : String) : Bool :=
  match v with
  | .jobj fields => (fields.lookup field).isSome
  | _ => false

mutual

/-- JavaScript `String(v)` coercion, applied where a payload value reaches a
string position (API parameter, property store). -/
def jsToString : JSValue → String
  | .jundefined => "undefined"
  | .jnull => "null"
  | .jbool b => if b then "true" else "false"
  | .jnum n => toString n
  | .jstr s => s
  | .jarr elems => jsToStringList elems
  | .jobj _ => "[object Object]"
  | .jfun => "function"

/-- Array stringification: elements joined with commas. -/
def jsToStringList : List JSValue → String
  | [] => ""
  | [v] => jsToString v
  | v :: rest => jsToString v ++ "," ++ jsToStringList rest

end

/-- Character-wise lowercasing, modelling JS `String.prototype.toLowerCase`
(defined over the character list so that it evaluates by kernel reduction). -/
def lowerStr (s : String) : String := ⟨s.data.map Char.toLower⟩

/-- Character-wise uppercasing, modelling JS `String.prototype.toUpperCase`. -/
def upperStr (s : String) : String := ⟨s.data.map Char.toUpper⟩

/-- One Gmail message header `{name, value}`. -/
structure Header where
  name : String
  value : String
deriving DecidableEq, Repr

/-- `message.payload`: `headers` may be absent (`undefined`). -/
structure MsgPayload where
  headers : Option (List Header)
deriving DecidableEq, Repr

/-- A Gmail message object as returned by `Gmail.Users.Messages.get`;
`payload` may be absent, in which case `getHeader` throws. -/
structure Email where
  id : String
  payload : Option MsgPayload
deriving DecidableEq, Repr

/-- `getHeader(message, headerName)` from the source: reads
`message.payload.headers || []` (a TypeError if `payload` is undefined,
modelled as `Except.error`), finds the first header whose name matches
case-insensitively, and returns its value, else the empty string. -/
def getHeader (message : Email) (headerName : String) : Except Unit String :=
  match message.payload with
  | none => .error ()
  | some p =>
    let headers := p.headers.getD []
    match headers.find? (fun header => lowerStr header.name == lowerStr headerName) with
    | some m => .ok m.value
    | none => .ok ""

/-- One element of `response.history`: `record.messages` (possibly absent) is
the list of added message ids (`msg.id`). -/
structure HistRecord where
  messages : Option (List String)
deriving DecidableEq, Repr

/-- A `Gmail.Users.History.list` response. -/
structure ListResponse where
  history : Option (List HistRecord)
  historyId : Option String
  nextPageToken : Option String
deriving DecidableEq, Repr

/-- `SCRIPT_PROPS`, restricted to the `lastHistoryId` property. -/
structure Store where
  lastHistoryId : Option String
deriving DecidableEq, Repr

/-- The external collaborators of one relay run. -/
structure Env where
  pages : List (Except Unit ListResponse)
  getMsg : String → Except Unit Email
  lastRow : Nat
  sheetFails : Bool

/-- Observable side effects, in program order. -/
inductive Ev where
  | readCursor (res : Option String)
  | listPage (startHistoryId : String)
  | resolveMsg (id : String) (ok : Bool)
  | writeCursor (v : String)
  | writeSheet (firstRow col numRows numCols : Nat)
  | sendTelegram (text : String)
  | sendSlack (text : String)
deriving DecidableEq, Repr

/-- JS truthiness of an optional string (`undefined` and `""` are falsy). -/
def truthyS (o : Option String) : Bool :=
  match o with
  | some s => s != ""
  | none => false

/-- Resolve a list of message ids via `Gmail.Users.Messages.get`; a throwing
lookup is caught, logged and skipped (part_000 `pullEmailsSince`). -/
def resolveIds (getMsg : String → Except Unit Email) : List String → List Email × List Ev
  | [] => ([], [])
  | id :: rest =>
    let r := resolveIds getMsg rest
    match getMsg id with
    | .ok email => (email :: r.1, .resolveMsg id true :: r.2)
    | .error _ => (r.1, .resolveMsg id false :: r.2)

/-- Resolve every `record.messages || []` of a history page, in order. -/
def resolveRecords (getMsg : String → Except Unit Email) :
    List HistRecord → List Email × List Ev
  | [] => ([], [])
  | record :: rest =>
    let a := resolveIds getMsg (record.messages.getD [])
    let b := resolveRecords getMsg rest
    (a.1 ++ b.1, a.2 ++ b.2)

/-- `if (response.historyId) lastHistoryId = response.historyId;` -/
def updateCursor (lastHistoryId : String) (response : ListResponse) : String :=
  match response.historyId with
  | some h => if h ≠ "" then h else lastHistoryId
  | none => lastHistoryId

/-- The do/while page loop of `pullEmailsSince`. Every iteration issues one
listing call (`listPage` event); a throwing listing call (or, in this model,
an exhausted `pages` sequence) yields `none` (the function returns `null`).
On success it yields the collected emails and the final `lastHistoryId`. -/
def pullLoop (getMsg : String → Except Unit Email) (startHistoryId : String) :
    List (Except Unit ListResponse) → String → Option (List Email × String) × List Ev
  | [], _ => (none, [.listPage startHistoryId])
  | .error _ :: _, _ => (none, [.listPage startHistoryId])
  | .ok response :: rest, lastHistoryId =>
    let resolved := resolveRecords getMsg (response.history.getD [])
    let last := updateCursor lastHistoryId response
    if truthyS response.nextPageToken then
      let r := pullLoop getMsg startHistoryId rest last
      (r.1.map (fun p => (resolved.1 ++ p.1, p.2)), .listPage startHistoryId :: resolved.2 ++ r.2)
    else
      (some (resolved.1, last), .listPage startHistoryId :: resolved.2)

/-- `pullEmailsSince(historyId)` (part_000 version): pages through the history
list; a failed listing call is caught and `null` is returned with no property
write; otherwise `SCRIPT_PROPS.setProperty('lastHistoryId', lastHistoryId)`
runs and the emails are returned. -/
def pullEmailsSince (env : Env) (historyId : String) (store : Store) :
    Option (List Email) × Store × List Ev :=
  match pullLoop env.getMsg historyId env.pages historyId with
  | (none, trace) => (none, store, trace)
  | (some (emails, lastHistoryId), trace) =>
    (some emails, ⟨some lastHistoryId⟩, trace ++ [.writeCursor lastHistoryId])

/-- The `MESSAGES` configuration object (config.gs). It has no `noHistory`
entry, so `MESSAGES.noHistory` reads as `undefined`. -/
structure Messages where
  configError : String
  noProcess : String
  processSuccess : String
  invalidApiKey : String
  invalidTask : String
  invalidData : String
deriving DecidableEq, Repr

/-- The configured message strings. -/
def MESSAGES : Messages :=
  { configError := "There is a problem with the configuration. Please contact the developer."
    noProcess := "No new email to process."
    processSuccess := "Data processed successfully."
    invalidApiKey := "API key is invalid!"
    invalidTask := "Task name is invalid!"
    invalidData := "Data is invalid or missing required properties!" }

/-- A `{success, message}` object; `message` is `none` when the field holds
`undefined` (as in the `MESSAGES.noHistory` branch). -/
structure ApiResponse where
  success : Bool
  message : Option String
deriving DecidableEq, Repr

/-- What a task handler returns: either a plain object or a
`ContentService` TextOutput wrapping a JSON string. -/
inductive HandlerResult where
  | plain (response : ApiResponse)
  | textOutput (content : String)
deriving DecidableEq, Repr

/-- `JSON.stringify` of a `{success, message}` object; an `undefined` message
field is omitted. -/
def stringifyResponse (r : ApiResponse) : String :=
  match r.message with
  | some m =>
    "\x7b\"success\":" ++ (if r.success then "true" else "false")
      ++ ",\"message\":\"" ++ m ++ "\"\x7d"
  | none => "\x7b\"success\":" ++ (if r.success then "true" else "false") ++ "\x7d"

/-- `requiredFields` of `processNewEmails`. -/
def requiredFields : List String := ["emailAddress", "historyId"]

/-- The validity test of `processNewEmails`:
`isObject(data) && requiredFields.every(field => hasOwnProperty(data, field))`.
Note it checks only field presence, not non-emptiness. -/
def validData (data : JSValue) : Bool :=
  isObject data && requiredFields.all (fun field => hasOwnProperty data field)

/-- `SCRIPT_PROPS.getProperty('lastHistoryId') || data.historyId`:
JS `||`, so an empty-string stored cursor also falls back to the
notification value (stringified where it is consumed). -/
def effectiveCursor (stored : Option String) (dataHistoryId : JSValue) : String :=
  match stored with
  | some s => if s ≠ "" then s else jsToString dataHistoryId
  | none => jsToString dataHistoryId

/-- Column-letter to 1-based column index, as computed inside
`SheetLayout.getDataMap`: `col.toUpperCase().split('').reduce((total, char) =>
total * 26 + (char.charCodeAt(0) - 64), 0)`. -/
def colToIndex (col : String) : Nat :=
  (upperStr col).data.foldl (fun total char => total * 26 + (char.toNat - 64)) 0

/-- `SheetLayout.getDataMap`: maps each configured variable name to the
column index of its column letter. -/
def getDataMap (variableNames : List (String × String)) : List (String × Nat) :=
  variableNames.map (fun kv => (kv.1, colToIndex kv.2))

/-- `SHEETCONFIG[...].layout.variableNames` for the Emails sheet
(variable name, column letter). -/
def emailsVariableNames : List (String × String) :=
  [("emailDate", "A"), ("emailFrom", "B"), ("emailSubject", "C")]

/-- Project one email into the three header values the sink row uses.
`new Date(...)` applied to the Date header is kept as the raw header string
(no claim depends on JS date parsing). A missing payload throws. -/
def rowOfEmail (email : Email) : Except Unit (String × String × String) := do
  let date ← getHeader email "Date"
  let fromV ← getHeader email "From"
  let subject ← getHeader email "Subject"
  return (date, fromV, subject)

/-- `emails.map(email => ({date..., from..., subject...}))`: JS `.map`
evaluates left to right and the first throwing element aborts the whole
expression, which is what the explicit `Except` recursion models. -/
def rowsOfEmails : List Email → Except Unit (List (String × String × String))
  | [] => .ok []
  | e :: rest =>
    match rowOfEmail e with
    | .error err => .error err
    | .ok v =>
      match rowsOfEmails rest with
      | .error err => .error err
      | .ok vs => .ok (v :: vs)

/-- The aggregated chat-notification text built from the projected rows. -/
def messageText (values : List (String × String × String)) : String :=
  values.foldl
    (fun message v =>
      message ++ "Date: " ++ v.1 ++ "\nFrom: " ++ v.2.1 ++ "\nSubject: " ++ v.2.2 ++ "\n\n")
    ""

/-- `processNewEmails(data)` (part_000 version): validate the payload shape,
resolve the effective cursor, pull emails (null means the listing failed:
return `{success:false, message: MESSAGES.noHistory}` where `noHistory` is
undefined), short-circuit on zero emails, otherwise project rows, write the
sheet (a throwing `setValues` aborts the run), and send the chat
notifications. Returns (result-or-throw, final store, event trace). -/
def processNewEmails (env : Env) (data : JSValue) (store : Store) :
    Except Unit HandlerResult × Store × List Ev :=
  if validData data = false then
    (.ok (.textOutput (stringifyResponse ⟨false, some MESSAGES.invalidData⟩)), store, [])
  else
    let stored := store.lastHistoryId
    let historyId := effectiveCursor stored (jsGet data "historyId")
    match pullEmailsSince env historyId store with
    | (none, store1, pullTrace) =>
      (.ok (.plain ⟨false, none⟩), store1, Ev.readCursor stored :: pullTrace)
    | (some emails, store1, pullTrace) =>
      let trace1 := Ev.readCursor stored :: pullTrace
      if emails.isEmpty then
        (.ok (.plain ⟨true, some MESSAGES.noProcess⟩), store1, trace1)
      else
        match rowsOfEmails emails with
        | .error _ => (.error (), store1, trace1)
        | .ok values =>
          let col := ((getDataMap emailsVariableNames).lookup "emailDate").getD 0
          let trace2 := trace1 ++ [Ev.writeSheet (env.lastRow + 1) col values.length 3]
          if env.sheetFails then
            (.error (), store1, trace2)
          else
            let text := messageText values
            (.ok (.plain ⟨true, some MESSAGES.processSuccess⟩), store1,
              trace2 ++ [Ev.sendTelegram text, Ev.sendSlack text])

/-- The raw POST body: either text that parses as JSON, or malformed text. -/
inductive RawBody where
  | wellFormed (v : JSValue)
  | malformed

/-- `JSON.parse(e.postData.contents)`: throws on malformed input. -/
def jsonParse : RawBody → Except Unit JSValue
  | .wellFormed v => .ok v
  | .malformed => .error ()

/-- JS strict equality of a payload value against a string constant. -/
def jsStrictEqString (v : JSValue) (s : String) : Bool :=
  match v with
  | .jstr t => t == s
  | _ => false

/-- `JSON.stringify(response)` in `doPost`: a plain `{success, message}`
object serializes normally; a `ContentService` TextOutput is an opaque
object with no own enumerable properties, so it serializes as `"\x7b\x7d"`. -/
def stringifyHandlerResult : HandlerResult → String
  | .plain response => stringifyResponse response
  | .textOutput _ => "\x7b\x7d"

/-- `doPost(e)` (triggers.gs): parse the body (no try/catch: a parse error
propagates), check the API key, check the task name against
`API_HANDLERS = {processNewEmails}`, run the handler and return the
stringified result. -/
def doPost (env : Env) (apiKey : String) (store : Store) (body : RawBody) :
    Except Unit (String × Store × List Ev) :=
  match jsonParse body with
  | .error _ => .error ()
  | .ok parsed =>
    if jsStrictEqString (jsGet parsed "apiKey") apiKey = false then
      .ok (stringifyResponse ⟨false, some MESSAGES.invalidApiKey⟩, store, [])
    else if jsStrictEqString (jsGet parsed "task") "processNewEmails" = false then
      .ok (stringifyResponse ⟨false, some MESSAGES.invalidTask⟩, store, [])
    else
      match processNewEmails env (jsGet parsed "data") store with
      | (.error _, _, _) => .error ()
      | (.ok result, store1, trace) => .ok (stringifyHandlerResult result, store1, trace)

/-- Numeric interpretation of a history id (Gmail history ids are decimal
strings); non-numeric strings read as 0. -/
def natOfHist (s : String) : Nat :=
  if s.data ≠ [] && s.data.all Char.isDigit then
    s.data.foldl (fun n c => n * 10 + (c.toNat - 48)) 0
  else 0

/-- Numeric value of the persisted cursor (0 when absent). -/
def cursorVal (store : Store) : Nat :=
  match store.lastHistoryId with
  | some s => natOfHist s
  | none => 0

/-- A single listing result respects a starting cursor when any non-empty
history id it reports is numerically at-or-after that cursor (what the real
Gmail API guarantees for `startHistoryId` queries). -/
def pageRespectsB (start : String) (r : Except Unit ListResponse) : Bool :=
  match r with
  | .ok response =>
    match response.historyId with
    | some h => h == "" || Nat.ble (natOfHist start) (natOfHist h)
    | none => true
  | .error _ => true

/-- All listing results of a run respect the run's starting cursor. -/
def pagesRespectB (pages : List (Except Unit ListResponse)) (start : String) : Bool :=
  pages.all (pageRespectsB start)

/-- One relay run, viewed as a store transformer. -/
def runStep (store : Store) (run : JSValue × Env) : Store :=
  (processNewEmails run.2 run.1 store).2.1

/-- The upstream responses of a run respect the cursor the run starts from. -/
def runRespectsB (store : Store) (run : JSValue × Env) : Bool :=
  pagesRespectB run.2.pages (effectiveCursor store.lastHistoryId (jsGet run.1 "historyId"))

/-- A sequence of relay runs, executed in order. -/
def runSeq : Store → List (JSValue × Env) → Store
  | store, [] => store
  | store, run :: rest => runSeq (runStep store run) rest

/-- Every run of a sequence respects the cursor it actually starts from. -/
def seqRespectsB : Store → List (JSValue × Env) → Bool
  | _, [] => true
  | store, run :: rest => runRespectsB store run && seqRespectsB (runStep store run) rest

/-- The non-empty history id a page reports, if any. -/
def reportedCursor (response : ListResponse) : Option String :=
  match response.historyId with
  | some h => if h = "" then none else some h
  | none => none

/-- The pages the do/while loop actually consumes: it stops after the first
page with a falsy next-page token, and a throwing listing call consumes
nothing durable. -/
def consumedPages : List (Except Unit ListResponse) → List ListResponse
  | [] => []
  | .error _ :: _ => []
  | .ok response :: rest =>
    if truthyS response.nextPageToken then response :: consumedPages rest else [response]

/-- The most recently reported non-empty history id across a page sequence,
falling back to the starting cursor when no page reports one. -/
def lastReported (pages : List ListResponse) (fromCursor : String) : String :=
  match pages.reverse.findSome? reportedCursor with
  | some h => h
  | none => fromCursor

/-- First `listPage` event of a trace: the cursor the fetch started from. -/
def firstFetchStart : List Ev → Option String
  | [] => none
  | .listPage s :: _ => some s
  | _ :: rest => firstFetchStart rest

/-! ### Helper lemmas -/

/-- A payload that fails validation is rejected immediately: the invalid-data
TextOutput is returned, the store is untouched and no event is emitted. -/
theorem processNewEmails_invalid (env : Env) (data : JSValue) (store : Store)
    (h : validData data = false) :
    processNewEmails env data store =
      (.ok (.textOutput (stringifyResponse ⟨false, some MESSAGES.invalidData⟩)), store, []) := by
  simp [processNewEmails, h]

/-! ### C9: column-letter conversion -/

/-- C9: the column-letter-to-index conversion used by `SheetLayout.getDataMap`
is base-26 with A=1: the letters A, B, Z, AA map to 1, 2, 26, 27, and on the
configured Emails layout the three variables map to columns 1, 2, 3. -/
theorem column_letter_mapping :
    getDataMap [("colA", "A"), ("colB", "B"), ("colZ", "Z"), ("colAA", "AA")] =
      [("colA", 1), ("colB", 2), ("colZ", 26), ("colAA", 27)] ∧
    getDataMap emailsVariableNames =
      [("emailDate", 1), ("emailFrom", 2), ("emailSubject", 3)] := by
  exact ⟨by decide, by decide⟩

/-! ### C10: getHeader -/

/-- C10: for every message that has a payload, `getHeader` does not throw; it
returns the value of the first header whose name matches the requested name
case-insensitively, and the empty string when no header matches (in
particular when the headers list is absent). -/
theorem getHeader_first_ci_match (message : Email) (p : MsgPayload) (headerName : String)
    (hp : message.payload = some p) :
    ∃ v, getHeader message headerName = Except.ok v ∧
      ((∃ pre m post, p.headers.getD [] = pre ++ m :: post ∧
          lowerStr m.name = lowerStr headerName ∧ v = m.value ∧
          ∀ h ∈ pre, lowerStr h.name ≠ lowerStr headerName) ∨
        (v = "" ∧ ∀ h ∈ p.headers.getD [], lowerStr h.name ≠ lowerStr headerName)) := by
  have hdef : getHeader message headerName =
      (match (p.headers.getD []).find?
          (fun header => lowerStr header.name == lowerStr headerName) with
        | some m => .ok m.value
        | none => .ok "") := by
    simp [getHeader, hp]
  cases hfind : (p.headers.getD []).find?
      (fun header => lowerStr header.name == lowerStr headerName) with
  | none =>
    refine ⟨"", by rw [hdef, hfind], Or.inr ⟨rfl, ?_⟩⟩
    intro h hmem
    have := List.find?_eq_none.mp hfind h hmem
    simpa using this
  | some m =>
    obtain ⟨hm, pre, post, heq, hpre⟩ := List.find?_eq_some.mp hfind
    refine ⟨m.value, by rw [hdef, hfind], Or.inl ⟨pre, m, post, heq, by simpa using hm, rfl, ?_⟩⟩
    intro h hmem
    have := hpre h hmem
    simpa using this

/-- Concrete witness email for the `getHeader` theorem. -/
def emailW : Email := ⟨"w", some ⟨some [⟨"X-Other", "zzz"⟩, ⟨"SUBJECT", "Hello"⟩]⟩⟩

/-- Payload of `emailW`. -/
def payloadW : MsgPayload := ⟨some [⟨"X-Other", "zzz"⟩, ⟨"SUBJECT", "Hello"⟩]⟩

/-- Witness: `getHeader` on a concrete message with a case-differing header. -/
theorem getHeader_first_ci_match_witness :
    emailW.payload = some payloadW ∧
    (∃ v, getHeader emailW "subject" = Except.ok v ∧
      ((∃ pre m post, payloadW.headers.getD [] = pre ++ m :: post ∧
          lowerStr m.name = lowerStr "subject" ∧ v = m.value ∧
          ∀ h ∈ pre, lowerStr h.name ≠ lowerStr "subject") ∨
        (v = "" ∧ ∀ h ∈ payloadW.headers.getD [], lowerStr h.name ≠ lowerStr "subject"))) :=
  ⟨rfl, getHeader_first_ci_match emailW payloadW "subject" rfl⟩

/-! ### C7: payload validation -/

/-- An input whose `emailAddress` and `historyId` fields are present but
empty strings. -/
def dataEmptyFields : JSValue :=
  .jobj [("emailAddress", .jstr ""), ("historyId", .jstr "")]

/-- An environment with one empty history page reporting cursor "115". -/
def envOnePage : Env :=
  { pages := [Except.ok ⟨some [], some "115", none⟩]
    getMsg := fun _ => .error ()
    lastRow := 0
    sheetFails := false }

/-- C7 counterexample: an input whose `emailAddress` and `historyId` fields
are present but empty is NOT rejected: the run proceeds to read the cursor,
issue a listing call and persist a cursor, contradicting the claim that any
input without non-empty fields is rejected before any I/O. -/
theorem decode_accepts_empty_fields_cex :
    jsGet dataEmptyFields "emailAddress" = JSValue.jstr "" ∧
    jsGet dataEmptyFields "historyId" = JSValue.jstr "" ∧
    processNewEmails envOnePage dataEmptyFields ⟨none⟩ =
      (.ok (.plain ⟨true, some MESSAGES.noProcess⟩), ⟨some "115"⟩,
        [Ev.readCursor none, Ev.listPage "", Ev.writeCursor "115"]) :=
  ⟨rfl, rfl, rfl⟩

/-- C7 (amended): an input that is not a plain object, or that lacks the
`emailAddress` or `historyId` property (presence, not non-emptiness, is what
is checked), is rejected with the invalid-data failure before any I/O: the
store is untouched and the event trace is empty. -/
theorem invalid_payload_rejected_before_io (env : Env) (data : JSValue) (store : Store)
    (h : validData data = false) :
    processNewEmails env data store =
      (.ok (.textOutput (stringifyResponse ⟨false, some MESSAGES.invalidData⟩)), store, []) :=
  processNewEmails_invalid env data store h

/-- Witness: a non-object payload is rejected with no I/O. -/
theorem invalid_payload_rejected_before_io_witness :
    validData (JSValue.jstr "oops") = false ∧
    processNewEmails envOnePage (JSValue.jstr "oops") ⟨none⟩ =
      (.ok (.textOutput (stringifyResponse ⟨false, some MESSAGES.invalidData⟩)), ⟨none⟩, []) :=
  ⟨rfl, invalid_payload_rejected_before_io envOnePage (JSValue.jstr "oops") ⟨none⟩ rfl⟩

/-! ### C5: per-item failures are skipped -/

/-- C5: a per-item resolve failure is skipped without aborting the batch:
for a change list with one resolvable and one unresolvable reference, the
fetch returns exactly the one resolvable record (and, being total, does not
raise; only a listing failure can make it return null). -/
theorem per_item_failure_skipped (env : Env) (a b : String) (e : Email)
    (hid : Option String) (start : String) (store : Store)
    (hpages : env.pages = [Except.ok ⟨some [⟨some [a, b]⟩], hid, none⟩])
    (ha : env.getMsg a = .ok e) (hb : env.getMsg b = .error ()) :
    (pullEmailsSince env start store).1 = some [e] := by
  simp [pullEmailsSince, hpages, pullLoop, resolveRecords, resolveIds, ha, hb, truthyS]

/-- Environment for the C5 witness: one page with one resolvable and one
unresolvable message reference. -/
def envMixed : Env :=
  { pages := [Except.ok ⟨some [⟨some ["good", "bad"]⟩], some "115", none⟩]
    getMsg := fun id => if id = "good" then .ok ⟨"good", some ⟨some []⟩⟩ else .error ()
    lastRow := 0
    sheetFails := false }

/-- Witness: the mixed batch yields exactly the resolvable record. -/
theorem per_item_failure_skipped_witness :
    envMixed.getMsg "good" = .ok ⟨"good", some ⟨some []⟩⟩ ∧
    envMixed.getMsg "bad" = .error () ∧
    (pullEmailsSince envMixed "100" ⟨none⟩).1 = some [⟨"good", some ⟨some []⟩⟩] :=
  ⟨rfl, rfl,
    per_item_failure_skipped envMixed "good" "bad" ⟨"good", some ⟨some []⟩⟩
      (some "115") "100" ⟨none⟩ rfl rfl rfl⟩

/-! ### C4: a failed listing call aborts with no cursor advance -/

/-- Per-item resolution emits only `resolveMsg` events. -/
theorem resolveIds_no_writeCursor (getMsg : String → Except Unit Email) (ids : List String)
    (v : String) : Ev.writeCursor v ∉ (resolveIds getMsg ids).2 := by
  induction ids with
  | nil => simp [resolveIds]
  | cons id rest ih =>
    cases hg : getMsg id with
    | ok email => simp [resolveIds, hg, ih]
    | error e => simp [resolveIds, hg, ih]

/-- Record resolution emits only `resolveMsg` events. -/
theorem resolveRecords_no_writeCursor (getMsg : String → Except Unit Email)
    (records : List HistRecord) (v : String) :
    Ev.writeCursor v ∉ (resolveRecords getMsg records).2 := by
  induction records with
  | nil => simp [resolveRecords]
  | cons record rest ih =>
    simp [resolveRecords, resolveIds_no_writeCursor getMsg (record.messages.getD []) v, ih]

/-- The page loop itself never writes the cursor property. -/
theorem pullLoop_no_writeCursor (getMsg : String → Except Unit Email) (start : String)
    (pages : List (Except Unit ListResponse)) (last v : String) :
    Ev.writeCursor v ∉ (pullLoop getMsg start pages last).2 := by
  induction pages generalizing last with
  | nil => simp [pullLoop]
  | cons page rest ih =>
    cases page with
    | error e => simp [pullLoop]
    | ok response =>
      by_cases ht : truthyS response.nextPageToken
      · simp [pullLoop, ht, resolveRecords_no_writeCursor, ih]
      · simp [pullLoop, ht, resolveRecords_no_writeCursor]

/-- C4: when the fetch fails (a listing call throws), the run aborts with a
structured failure object (`success:false`, message undefined since
`MESSAGES.noHistory` does not exist), the persisted cursor is exactly its
pre-run value, and no cursor write happens at all. -/
theorem listing_failure_aborts (env : Env) (data : JSValue) (store : Store)
    (hvalid : validData data = true)
    (hfail : (pullEmailsSince env
        (effectiveCursor store.lastHistoryId (jsGet data "historyId")) store).1 = none) :
    (processNewEmails env data store).1 = Except.ok (HandlerResult.plain ⟨false, none⟩) ∧
    (processNewEmails env data store).2.1 = store ∧
    ∀ v, Ev.writeCursor v ∉ (processNewEmails env data store).2.2 := by
  rcases hloop : pullLoop env.getMsg
      (effectiveCursor store.lastHistoryId (jsGet data "historyId")) env.pages
      (effectiveCursor store.lastHistoryId (jsGet data "historyId")) with ⟨po, ptr⟩
  cases po with
  | some p =>
    exfalso
    simp [pullEmailsSince, hloop] at hfail
  | none =>
    have hpull : pullEmailsSince env
        (effectiveCursor store.lastHistoryId (jsGet data "historyId")) store =
        (none, store, ptr) := by
      simp [pullEmailsSince, hloop]
    refine ⟨?_, ?_, ?_⟩
    · simp [processNewEmails, hvalid, hpull]
    · simp [processNewEmails, hvalid, hpull]
    · intro v
      have hnl := pullLoop_no_writeCursor env.getMsg
        (effectiveCursor store.lastHistoryId (jsGet data "historyId")) env.pages
        (effectiveCursor store.lastHistoryId (jsGet data "historyId")) v
      rw [hloop] at hnl
      simp [processNewEmails, hvalid, hpull, hnl]

/-- Environment whose first listing call throws. -/
def envListingFails : Env :=
  { pages := [Except.error ()]
    getMsg := fun _ => .error ()
    lastRow := 0
    sheetFails := false }

/-- A valid notification payload with cursor "100". -/
def dataValid100 : JSValue :=
  .jobj [("emailAddress", .jstr "u@x.com"), ("historyId", .jstr "100")]

/-- Witness: a run whose listing call throws leaves the stored cursor at its
pre-run value "100" and reports a structured failure. -/
theorem listing_failure_aborts_witness :
    validData dataValid100 = true ∧
    ((processNewEmails envListingFails dataValid100 ⟨some "100"⟩).1 =
        Except.ok (HandlerResult.plain ⟨false, none⟩) ∧
      (processNewEmails envListingFails dataValid100 ⟨some "100"⟩).2.1 = (⟨some "100"⟩ : Store) ∧
      ∀ v, Ev.writeCursor v ∉ (processNewEmails envListingFails dataValid100 ⟨some "100"⟩).2.2) :=
  ⟨rfl, listing_failure_aborts envListingFails dataValid100 ⟨some "100"⟩ rfl rfl⟩

/-! ### C2: the cursor is advanced before the sink write -/

/-- Environment with one resolvable message and a sheet write that throws. -/
def envSheetFails : Env :=
  { pages := [Except.ok ⟨some [⟨some ["m1"]⟩], some "115", none⟩]
    getMsg := fun id => if id = "m1" then .ok ⟨"m1", some ⟨some []⟩⟩ else .error ()
    lastRow := 5
    sheetFails := true }

/-- C2 counterexample: a run whose sheet write throws is cut off
(`Except.error`), yet the persisted cursor has already moved from its
pre-run value "100" to "115" — and the event trace shows the cursor write
happening strictly before the attempted sheet write. This contradicts the
claim that the cursor is advanced only after the sink write succeeds. -/
theorem cursor_advanced_despite_write_failure_cex :
    (processNewEmails envSheetFails dataValid100 ⟨some "100"⟩).1 = Except.error () ∧
    (processNewEmails envSheetFails dataValid100 ⟨some "100"⟩).2.1 = (⟨some "115"⟩ : Store) ∧
    (⟨some "115"⟩ : Store) ≠ (⟨some "100"⟩ : Store) ∧
    (processNewEmails envSheetFails dataValid100 ⟨some "100"⟩).2.2 =
      [Ev.readCursor (some "100"), Ev.listPage "100", Ev.resolveMsg "m1" true,
        Ev.writeCursor "115", Ev.writeSheet 6 1 1 3] :=
  ⟨rfl, rfl, by decide, rfl⟩

/-- C2 (amended): the persisted cursor is advanced inside the fetch, before
the sink write: a run that is cut off by a throwing sheet write ends with
the cursor already advanced to the position the fetch returned (so a retry
does not re-deliver those rows). -/
theorem cursor_advanced_before_sink_write (env : Env) (data : JSValue) (store : Store)
    (emails : List Email) (store1 : Store) (ptrace : List Ev)
    (hvalid : validData data = true)
    (hfetch : pullEmailsSince env
        (effectiveCursor store.lastHistoryId (jsGet data "historyId")) store =
      (some emails, store1, ptrace))
    (hfail : env.sheetFails = true)
    (hne : emails ≠ [])
    (hrows : ∃ values, rowsOfEmails emails = Except.ok values) :
    (processNewEmails env data store).1 = Except.error () ∧
    (processNewEmails env data store).2.1 = store1 ∧
    ∃ c, store1.lastHistoryId = some c := by
  rcases hloop : pullLoop env.getMsg
      (effectiveCursor store.lastHistoryId (jsGet data "historyId")) env.pages
      (effectiveCursor store.lastHistoryId (jsGet data "historyId")) with ⟨po, ptr⟩
  cases po with
  | none =>
    exfalso
    simp [pullEmailsSince, hloop] at hfetch
  | some p =>
    obtain ⟨es, c⟩ := p
    have hpull : pullEmailsSince env
        (effectiveCursor store.lastHistoryId (jsGet data "historyId")) store =
        (some es, ⟨some c⟩, ptr ++ [.writeCursor c]) := by
      simp [pullEmailsSince, hloop]
    have heq := hpull.symm.trans hfetch
    simp only [Prod.mk.injEq, Option.some.injEq] at heq
    obtain ⟨hes, hst, -⟩ := heq
    obtain ⟨values, hvalues⟩ := hrows
    have hvalues2 : rowsOfEmails es = Except.ok values := by rw [hes]; exact hvalues
    have hemp : es.isEmpty = false := by
      rw [hes]
      cases emails with
      | nil => exact absurd rfl hne
      | cons a t => rfl
    refine ⟨?_, ?_, ?_⟩
    · simp only [processNewEmails, hvalid, hpull, hemp, hfail]
      simp
      split <;> rfl
    · rw [← hst]
      simp only [processNewEmails, hvalid, hpull, hemp, hfail]
      simp
      split <;> rfl
    · exact ⟨c, by rw [← hst]⟩

/-- Witness: the concrete sheet-failure run, via the amended theorem. -/
theorem cursor_advanced_before_sink_write_witness :
    envSheetFails.sheetFails = true ∧
    ((processNewEmails envSheetFails dataValid100 ⟨some "100"⟩).1 = Except.error () ∧
      (processNewEmails envSheetFails dataValid100 ⟨some "100"⟩).2.1 =
        (⟨some "115"⟩ : Store) ∧
      ∃ c, (⟨some "115"⟩ : Store).lastHistoryId = some c) :=
  ⟨rfl,
    cursor_advanced_before_sink_write envSheetFails dataValid100 ⟨some "100"⟩
      [⟨"m1", some ⟨some []⟩⟩] ⟨some "115"⟩
      [Ev.listPage "100", Ev.resolveMsg "m1" true, Ev.writeCursor "115"]
      rfl rfl rfl (by decide) ⟨[("", "", "")], rfl⟩⟩

/-! ### C6: effective starting cursor -/

/-- The page-loop trace always begins with the listing call for the starting
cursor. -/
theorem pullLoop_trace_head (getMsg : String → Except Unit Email) (start : String)
    (pages : List (Except Unit ListResponse)) (last : String) :
    ∃ rest, (pullLoop getMsg start pages last).2 = Ev.listPage start :: rest := by
  cases pages with
  | nil => exact ⟨[], rfl⟩
  | cons page rest =>
    cases page with
    | error e => exact ⟨[], rfl⟩
    | ok response =>
      by_cases ht : truthyS response.nextPageToken
      · exact ⟨(resolveRecords getMsg (response.history.getD [])).2 ++
          (pullLoop getMsg start rest (updateCursor last response)).2,
          by simp [pullLoop, ht]⟩
      · exact ⟨(resolveRecords getMsg (response.history.getD [])).2,
          by simp [pullLoop, ht]⟩

/-- `firstFetchStart` found in a prefix survives appending. -/
theorem firstFetchStart_append (l1 l2 : List Ev) (s : String)
    (h : firstFetchStart l1 = some s) : firstFetchStart (l1 ++ l2) = some s := by
  induction l1 with
  | nil => exact absurd h (by simp [firstFetchStart])
  | cons ev rest ih =>
    cases ev with
    | listPage t => simpa [firstFetchStart] using h
    | readCursor r => exact ih (by simpa [firstFetchStart] using h)
    | resolveMsg i o => exact ih (by simpa [firstFetchStart] using h)
    | writeCursor v => exact ih (by simpa [firstFetchStart] using h)
    | writeSheet a b c d => exact ih (by simpa [firstFetchStart] using h)
    | sendTelegram t => exact ih (by simpa [firstFetchStart] using h)
    | sendSlack t => exact ih (by simpa [firstFetchStart] using h)

/-- A valid notification with a non-empty stored cursor. -/
def dataNotif123 : JSValue :=
  .jobj [("emailAddress", .jstr "u@x.com"), ("historyId", .jstr "123")]

/-- C6 counterexample: with the persisted cursor present but equal to the
empty string, the run does NOT start from the persisted cursor: JS `||`
treats `""` as falsy, so the fetch starts from the notification's cursor
"123". This refutes `getCursor() ?? notification.cursor` (the persisted
cursor winning whenever one is present). -/
theorem effective_cursor_empty_string_cex :
    (⟨some ""⟩ : Store).lastHistoryId = some "" ∧
    firstFetchStart (processNewEmails envOnePage dataNotif123 ⟨some ""⟩).2.2 = some "123" ∧
    ("123" : String) ≠ "" :=
  ⟨rfl, rfl, by decide⟩

/-- C6 (amended): for every valid payload, the fetch starts from the
persisted cursor when it is present and non-empty, and otherwise (absent or
empty-string persisted cursor, JS `||` semantics) from the stringified
notification cursor — as computed by `effectiveCursor`. -/
theorem effective_cursor_resolution (env : Env) (data : JSValue) (store : Store)
    (hvalid : validData data = true) :
    firstFetchStart (processNewEmails env data store).2.2 =
      some (effectiveCursor store.lastHistoryId (jsGet data "historyId")) := by
  rcases hloop : pullLoop env.getMsg
      (effectiveCursor store.lastHistoryId (jsGet data "historyId")) env.pages
      (effectiveCursor store.lastHistoryId (jsGet data "historyId")) with ⟨po, ptr⟩
  obtain ⟨lrest, hhead⟩ := pullLoop_trace_head env.getMsg
    (effectiveCursor store.lastHistoryId (jsGet data "historyId")) env.pages
    (effectiveCursor store.lastHistoryId (jsGet data "historyId"))
  rw [hloop] at hhead
  subst hhead
  cases po with
  | none =>
    have hpull : pullEmailsSince env
        (effectiveCursor store.lastHistoryId (jsGet data "historyId")) store =
        (none, store,
          Ev.listPage (effectiveCursor store.lastHistoryId (jsGet data "historyId")) :: lrest) := by
      simp [pullEmailsSince, hloop]
    simp only [processNewEmails, hvalid, Bool.true_eq_false, if_false, hpull]
    rfl
  | some p =>
    obtain ⟨es, c⟩ := p
    have hpull : pullEmailsSince env
        (effectiveCursor store.lastHistoryId (jsGet data "historyId")) store =
        (some es, ⟨some c⟩,
          (Ev.listPage (effectiveCursor store.lastHistoryId (jsGet data "historyId")) :: lrest)
            ++ [.writeCursor c]) := by
      simp [pullEmailsSince, hloop]
    simp only [processNewEmails, hvalid, Bool.true_eq_false, if_false, hpull]
    repeat first | rfl | split

/-- Witness for the amended C6 theorem: with stored cursor "100" and
notification cursor "123", the fetch starts at "100". -/
theorem effective_cursor_resolution_witness :
    validData dataNotif123 = true ∧
    firstFetchStart (processNewEmails envOnePage dataNotif123 ⟨some "100"⟩).2.2 =
      some (effectiveCursor (some "100") (jsGet dataNotif123 "historyId")) :=
  ⟨rfl, effective_cursor_resolution envOnePage dataNotif123 ⟨some "100"⟩ rfl⟩

/-! ### C3: the persisted newCursor -/

/-- The cursor update of one page is the page's reported non-empty history
id, defaulting to the running value. -/
theorem updateCursor_eq_reported (c0 : String) (response : ListResponse) :
    updateCursor c0 response = (reportedCursor response).getD c0 := by
  cases h : response.historyId with
  | none => simp [updateCursor, reportedCursor, h]
  | some hid =>
    by_cases he : hid = ""
    · simp [updateCursor, reportedCursor, h, he]
    · simp [updateCursor, reportedCursor, h, he]

/-- `lastReported` peels one page off the front by folding it into the
running cursor. -/
theorem lastReported_cons (response : ListResponse) (l : List ListResponse) (c0 : String) :
    lastReported (response :: l) c0 = lastReported l (updateCursor c0 response) := by
  simp only [lastReported, List.reverse_cons, List.findSome?_append]
  cases h : l.reverse.findSome? reportedCursor with
  | some x => rfl
  | none =>
    cases hr : reportedCursor response with
    | some hid => simp [List.findSome?, hr, updateCursor_eq_reported]
    | none => simp [List.findSome?, hr, updateCursor_eq_reported]

/-- When no page reports a cursor, `lastReported` is the starting cursor. -/
theorem lastReported_all_none (l : List ListResponse) (c0 : String)
    (h : ∀ r ∈ l, reportedCursor r = none) : lastReported l c0 = c0 := by
  have : l.reverse.findSome? reportedCursor = none := by
    rw [List.findSome?_eq_none_iff]
    intro x hx
    exact h x (List.mem_reverse.mp hx)
  simp [lastReported, this]

/-- On success, the page loop's final cursor is the most recently reported
non-empty history id of the consumed pages (last one wins, regardless of
magnitude), falling back to the accumulator when none reported. -/
theorem pullLoop_cursor_lastReported (getMsg : String → Except Unit Email) (start : String) :
    ∀ (pages : List (Except Unit ListResponse)) (last : String) (es : List Email)
      (c : String) (ptr : List Ev),
      pullLoop getMsg start pages last = (some (es, c), ptr) →
      c = lastReported (consumedPages pages) last := by
  intro pages
  induction pages with
  | nil =>
    intro last es c ptr h
    exact absurd h (by simp [pullLoop])
  | cons page rest ih =>
    intro last es c ptr h
    cases page with
    | error e => exact absurd h (by simp [pullLoop])
    | ok response =>
      by_cases ht : truthyS response.nextPageToken
      · rcases hrec : pullLoop getMsg start rest (updateCursor last response) with ⟨po2, ptr2⟩
        cases po2 with
        | none =>
          exfalso
          simp [pullLoop, ht, hrec] at h
        | some p2 =>
          obtain ⟨es2, c2⟩ := p2
          have hc : c2 = c := by
            have h2 := h
            simp [pullLoop, ht, hrec] at h2
            exact h2.1.2
          have hrest := ih (updateCursor last response) es2 c2 ptr2 hrec
          rw [consumedPages, if_pos ht, lastReported_cons, ← hrest, hc]
      · have hc : updateCursor last response = c := by
          have h2 := h
          simp [pullLoop, ht] at h2
          exact h2.1.2
        rw [consumedPages, if_neg ht, lastReported_cons, ← hc]
        have : lastReported ([] : List ListResponse) (updateCursor last response) =
            updateCursor last response := by
          simp [lastReported, List.findSome?]
        exact this.symm

/-- C3 (amended): on a successful fetch, the cursor `pullEmailsSince`
persists is the MOST RECENTLY reported non-empty history id across the
consumed pages — the last report wins even when it is numerically smaller
than an earlier one, so it is not in general the highest — and when no
consumed page reports a cursor it equals the starting `fromCursor`. -/
theorem pull_newCursor_last_reported (env : Env) (fromCursor : String) (store : Store)
    (emails : List Email) (store1 : Store) (trace : List Ev)
    (hpull : pullEmailsSince env fromCursor store = (some emails, store1, trace)) :
    store1.lastHistoryId = some (lastReported (consumedPages env.pages) fromCursor) ∧
    ((∀ r ∈ consumedPages env.pages, reportedCursor r = none) →
      store1.lastHistoryId = some fromCursor) := by
  rcases hloop : pullLoop env.getMsg fromCursor env.pages fromCursor with ⟨po, ptr⟩
  cases po with
  | none =>
    exfalso
    simp [pullEmailsSince, hloop] at hpull
  | some p =>
    obtain ⟨es, c⟩ := p
    have heq : pullEmailsSince env fromCursor store =
        (some es, ⟨some c⟩, ptr ++ [.writeCursor c]) := by
      simp [pullEmailsSince, hloop]
    have hst : (⟨some c⟩ : Store) = store1 := by
      have := heq.symm.trans hpull
      simp only [Prod.mk.injEq] at this
      exact this.2.1
    have hc := pullLoop_cursor_lastReported env.getMsg fromCursor env.pages fromCursor es c ptr hloop
    constructor
    · rw [← hst, hc]
    · intro hnone
      rw [← hst, hc, lastReported_all_none _ _ hnone]

/-- Two pages: the first reports cursor "200" with a continuation token, the
second reports the smaller cursor "150" and ends the loop. -/
def envTwoPages : Env :=
  { pages := [Except.ok ⟨some [], some "200", some "t"⟩, Except.ok ⟨some [], some "150", none⟩]
    getMsg := fun _ => .error ()
    lastRow := 0
    sheetFails := false }

/-- C3 counterexample: across the two consumed pages the highest reported
cursor is "200", but the fetch persists "150" (the LAST reported one), which
is numerically smaller — refuting "the highest cursor value reported across
all pages". -/
theorem newCursor_not_highest_cex :
    (pullEmailsSince envTwoPages "100" ⟨some "100"⟩).2.1.lastHistoryId = some "150" ∧
    (consumedPages envTwoPages.pages).map reportedCursor = [some "200", some "150"] ∧
    natOfHist "150" < natOfHist "200" :=
  ⟨rfl, rfl, by decide⟩

/-- Witness for the amended C3 theorem on the two-page environment. -/
theorem pull_newCursor_last_reported_witness :
    pullEmailsSince envTwoPages "100" ⟨some "100"⟩ =
      (some [], ⟨some "150"⟩, [Ev.listPage "100", Ev.listPage "100", Ev.writeCursor "150"]) ∧
    ((⟨some "150"⟩ : Store).lastHistoryId =
        some (lastReported (consumedPages envTwoPages.pages) "100") ∧
      ((∀ r ∈ consumedPages envTwoPages.pages, reportedCursor r = none) →
        (⟨some "150"⟩ : Store).lastHistoryId = some "100")) :=
  ⟨rfl,
    pull_newCursor_last_reported envTwoPages "100" ⟨some "100"⟩ [] ⟨some "150"⟩
      [Ev.listPage "100", Ev.listPage "100", Ev.writeCursor "150"] rfl⟩

/-! ### C1: the persisted cursor never decreases -/

/-- The cursor value is at most the numeric value of the effective cursor a
run starts from: a stored non-empty cursor is itself the effective cursor,
and an absent or empty one counts as 0. -/
theorem cursorVal_le_effective (store : Store) (d : JSValue) :
    cursorVal store ≤ natOfHist (effectiveCursor store.lastHistoryId d) := by
  cases hs : store.lastHistoryId with
  | none => simp [cursorVal, hs]
  | some s =>
    by_cases he : s = ""
    · have h0 : natOfHist "" = 0 := rfl
      subst he
      simp [cursorVal, hs, h0]
    · simp [cursorVal, hs, effectiveCursor, he]

/-- If every page respects the starting cursor, the loop's final cursor is
numerically at-or-after the starting cursor. -/
theorem pullLoop_cursor_ge (getMsg : String → Except Unit Email) (start : String) :
    ∀ (pages : List (Except Unit ListResponse)) (last : String) (es : List Email)
      (c : String) (ptr : List Ev),
      (∀ r ∈ pages, pageRespectsB start r = true) →
      natOfHist start ≤ natOfHist last →
      pullLoop getMsg start pages last = (some (es, c), ptr) →
      natOfHist start ≤ natOfHist c := by
  intro pages
  induction pages with
  | nil =>
    intro last es c ptr hresp hlast h
    exact absurd h (by simp [pullLoop])
  | cons page rest ih =>
    intro last es c ptr hresp hlast h
    cases page with
    | error e => exact absurd h (by simp [pullLoop])
    | ok response =>
      have hlast2 : natOfHist start ≤ natOfHist (updateCursor last response) := by
        have hr := hresp (Except.ok response) (List.mem_cons_self _ _)
        cases hh : response.historyId with
        | none => simpa [updateCursor, hh] using hlast
        | some hid =>
          by_cases he : hid = ""
          · simpa [updateCursor, hh, he] using hlast
          · simp only [pageRespectsB, hh] at hr
            rw [Bool.or_eq_true] at hr
            rcases hr with h1 | h1
            · exact absurd (by simpa using h1) he
            · simpa [updateCursor, hh, he] using Nat.le_of_ble_eq_true h1
      by_cases ht : truthyS response.nextPageToken
      · rcases hrec : pullLoop getMsg start rest (updateCursor last response) with ⟨po2, ptr2⟩
        cases po2 with
        | none =>
          exfalso
          simp [pullLoop, ht, hrec] at h
        | some p2 =>
          obtain ⟨es2, c2⟩ := p2
          have hc : c2 = c := by
            have h2 := h
            simp [pullLoop, ht, hrec] at h2
            exact h2.1.2
          rw [← hc]
          exact ih (updateCursor last response) es2 c2 ptr2
            (fun r hr => hresp r (List.mem_cons_of_mem _ hr)) hlast2 hrec
      · have hc : updateCursor last response = c := by
          have h2 := h
          simp [pullLoop, ht] at h2
          exact h2.1.2
        rw [← hc]
        exact hlast2

/-- On valid input the run's final store is exactly the store the fetch
produced (every later branch passes it through unchanged). -/
theorem processNewEmails_store_valid (env : Env) (data : JSValue) (store : Store)
    (hvalid : validData data = true) :
    (processNewEmails env data store).2.1 =
      (pullEmailsSince env (effectiveCursor store.lastHistoryId (jsGet data "historyId"))
        store).2.1 := by
  rcases hp : pullEmailsSince env
      (effectiveCursor store.lastHistoryId (jsGet data "historyId")) store with ⟨res, st, tr⟩
  cases res with
  | none => simp [processNewEmails, hvalid, hp]
  | some emails =>
    simp only [processNewEmails, hvalid, Bool.true_eq_false, if_false, hp]
    repeat first | rfl | split

/-- Single-run monotonicity: a run whose upstream pages respect its starting
cursor cannot decrease the persisted cursor value. -/
theorem runStep_mono (store : Store) (run : JSValue × Env)
    (h : runRespectsB store run = true) :
    cursorVal store ≤ cursorVal (runStep store run) := by
  obtain ⟨data, env⟩ := run
  by_cases hv : validData data = true
  · have hstore := processNewEmails_store_valid env data store hv
    show cursorVal store ≤ cursorVal (processNewEmails env data store).2.1
    rw [hstore]
    rcases hloop : pullLoop env.getMsg
        (effectiveCursor store.lastHistoryId (jsGet data "historyId")) env.pages
        (effectiveCursor store.lastHistoryId (jsGet data "historyId")) with ⟨po, ptr⟩
    cases po with
    | none =>
      have : (pullEmailsSince env
          (effectiveCursor store.lastHistoryId (jsGet data "historyId")) store).2.1 = store := by
        simp [pullEmailsSince, hloop]
      rw [this]
    | some p =>
      obtain ⟨es, c⟩ := p
      have hresp : ∀ r ∈ env.pages,
          pageRespectsB (effectiveCursor store.lastHistoryId (jsGet data "historyId")) r = true := by
        have hall : pagesRespectB env.pages
            (effectiveCursor store.lastHistoryId (jsGet data "historyId")) = true := by
          simpa [runRespectsB] using h
        exact fun r hr => List.all_eq_true.mp hall r hr
      have hge := pullLoop_cursor_ge env.getMsg
        (effectiveCursor store.lastHistoryId (jsGet data "historyId")) env.pages
        (effectiveCursor store.lastHistoryId (jsGet data "historyId")) es c ptr hresp
        (Nat.le_refl _) hloop
      have hcv : cursorVal (pullEmailsSince env
          (effectiveCursor store.lastHistoryId (jsGet data "historyId")) store).2.1 =
          natOfHist c := by
        simp [pullEmailsSince, hloop, cursorVal]
      rw [hcv]
      exact Nat.le_trans (cursorVal_le_effective store (jsGet data "historyId")) hge
  · have hv2 : validData data = false := by simpa using hv
    show cursorVal store ≤ cursorVal (processNewEmails env data store).2.1
    rw [processNewEmails_invalid env data store hv2]

/-- C1: for every sequence of relay runs in which the upstream responses
respect each run's effective starting cursor (as the Gmail API does), the
persisted cursor value never decreases — regardless of how the
notifications are ordered or duplicated, since an invalid or failed run
leaves the store untouched and a successful run only moves it forward. -/
theorem cursor_monotonic_over_runs (store : Store) (runs : List (JSValue × Env))
    (h : seqRespectsB store runs = true) :
    cursorVal store ≤ cursorVal (runSeq store runs) := by
  induction runs generalizing store with
  | nil => exact Nat.le_refl _
  | cons run rest ih =>
    simp only [seqRespectsB, Bool.and_eq_true] at h
    exact Nat.le_trans (runStep_mono store run h.1) (ih (runStep store run) h.2)

/-- Run-1 environment: reports cursor "115". -/
def envRun1 : Env :=
  { pages := [Except.ok ⟨some [], some "115", none⟩]
    getMsg := fun _ => .error ()
    lastRow := 0
    sheetFails := false }

/-- Run-2 environment: reports cursor "120". -/
def envRun2 : Env :=
  { pages := [Except.ok ⟨some [], some "120", none⟩]
    getMsg := fun _ => .error ()
    lastRow := 0
    sheetFails := false }

/-- A stale out-of-order notification carrying cursor "90". -/
def dataNotif90 : JSValue :=
  .jobj [("emailAddress", .jstr "u@x.com"), ("historyId", .jstr "90")]

/-- Two runs: a fresh notification, then a stale duplicate (cursor "90"
after the store already holds "115"). -/
def runsW : List (JSValue × Env) := [(dataValid100, envRun1), (dataNotif90, envRun2)]

/-- Witness: the out-of-order two-run sequence never decreases the cursor. -/
theorem cursor_monotonic_over_runs_witness :
    seqRespectsB ⟨some "100"⟩ runsW = true ∧
    cursorVal ⟨some "100"⟩ ≤ cursorVal (runSeq ⟨some "100"⟩ runsW) :=
  ⟨by decide, cursor_monotonic_over_runs ⟨some "100"⟩ runsW (by decide)⟩

/-! ### C8: the POST handler -/

/-- Every email produced by id resolution came from a successful lookup. -/
theorem resolveIds_mem (getMsg : String → Except Unit Email) (ids : List String) :
    ∀ e ∈ (resolveIds getMsg ids).1, ∃ id, getMsg id = .ok e := by
  induction ids with
  | nil => simp [resolveIds]
  | cons id rest ih =>
    cases hg : getMsg id with
    | ok email =>
      intro e he
      simp only [resolveIds, hg, List.mem_cons] at he
      rcases he with rfl | he
      · exact ⟨id, hg⟩
      · exact ih e he
    | error err =>
      intro e he
      simp only [resolveIds, hg] at he
      exact ih e he

/-- Every email produced by record resolution came from a successful lookup. -/
theorem resolveRecords_mem (getMsg : String → Except Unit Email) (records : List HistRecord) :
    ∀ e ∈ (resolveRecords getMsg records).1, ∃ id, getMsg id = .ok e := by
  induction records with
  | nil => simp [resolveRecords]
  | cons record rest ih =>
    intro e he
    simp only [resolveRecords, List.mem_append] at he
    rcases he with he | he
    · exact resolveIds_mem getMsg _ e he
    · exact ih e he

/-- Every email a successful page loop returns came from a successful
`Gmail.Users.Messages.get`. -/
theorem pullLoop_mem (getMsg : String → Except Unit Email) (start : String) :
    ∀ (pages : List (Except Unit ListResponse)) (last : String) (es : List Email)
      (c : String) (ptr : List Ev),
      pullLoop getMsg start pages last = (some (es, c), ptr) →
      ∀ e ∈ es, ∃ id, getMsg id = .ok e := by
  intro pages
  induction pages with
  | nil =>
    intro last es c ptr h
    exact absurd h (by simp [pullLoop])
  | cons page rest ih =>
    intro last es c ptr h
    cases page with
    | error err => exact absurd h (by simp [pullLoop])
    | ok response =>
      by_cases ht : truthyS response.nextPageToken
      · rcases hrec : pullLoop getMsg start rest (updateCursor last response) with ⟨po2, ptr2⟩
        cases po2 with
        | none =>
          exfalso
          simp [pullLoop, ht, hrec] at h
        | some p2 =>
          obtain ⟨es2, c2⟩ := p2
          have hes : (resolveRecords getMsg (response.history.getD [])).1 ++ es2 = es := by
            have h2 := h
            simp [pullLoop, ht, hrec] at h2
            exact h2.1.1
          intro e he
          rw [← hes, List.mem_append] at he
          rcases he with he | he
          · exact resolveRecords_mem getMsg _ e he
          · exact ih (updateCursor last response) es2 c2 ptr2 hrec e he
      · have hes : (resolveRecords getMsg (response.history.getD [])).1 = es := by
          have h2 := h
          simp [pullLoop, ht] at h2
          exact h2.1.1
        intro e he
        rw [← hes] at he
        exact resolveRecords_mem getMsg _ e he

/-- `getHeader` cannot throw on a message whose payload is present. -/
theorem getHeader_ok (e : Email) (p : MsgPayload) (n : String) (hp : e.payload = some p) :
    ∃ v, getHeader e n = .ok v := by
  cases hfind : (p.headers.getD []).find? (fun header => lowerStr header.name == lowerStr n) with
  | some m => exact ⟨m.value, by simp [getHeader, hp, hfind]⟩
  | none => exact ⟨"", by simp [getHeader, hp, hfind]⟩

/-- Row projection cannot throw on a message whose payload is present. -/
theorem rowOfEmail_ok (e : Email) (hp : e.payload.isSome = true) :
    ∃ v, rowOfEmail e = .ok v := by
  obtain ⟨p, hp2⟩ := Option.isSome_iff_exists.mp hp
  obtain ⟨d, hd⟩ := getHeader_ok e p "Date" hp2
  obtain ⟨f, hf⟩ := getHeader_ok e p "From" hp2
  obtain ⟨s, hs⟩ := getHeader_ok e p "Subject" hp2
  refine ⟨(d, f, s), ?_⟩
  unfold rowOfEmail
  rw [hd, hf, hs]
  rfl

/-- Projecting a batch of payload-carrying emails cannot throw. -/
theorem rowsOfEmails_ok (emails : List Email)
    (h : ∀ e ∈ emails, e.payload.isSome = true) :
    ∃ values, rowsOfEmails emails = Except.ok values := by
  induction emails with
  | nil => exact ⟨[], rfl⟩
  | cons e rest ih =>
    obtain ⟨v, hv⟩ := rowOfEmail_ok e (h e (List.mem_cons_self _ _))
    obtain ⟨vs, hvs⟩ := ih (fun x hx => h x (List.mem_cons_of_mem _ hx))
    exact ⟨v :: vs, by simp [rowsOfEmails, hv, hvs]⟩

/-- `processNewEmails` returns (rather than throws) whenever the sheet write
does not throw and every resolvable message carries a payload. -/
theorem processNewEmails_no_throw (env : Env) (data : JSValue) (store : Store)
    (hsheet : env.sheetFails = false)
    (hmsg : ∀ id e, env.getMsg id = Except.ok e → e.payload.isSome = true) :
    ∃ r, (processNewEmails env data store).1 = Except.ok r := by
  by_cases hv : validData data = true
  · rcases hloop : pullLoop env.getMsg
        (effectiveCursor store.lastHistoryId (jsGet data "historyId")) env.pages
        (effectiveCursor store.lastHistoryId (jsGet data "historyId")) with ⟨po, ptr⟩
    cases po with
    | none =>
      have hpull : pullEmailsSince env
          (effectiveCursor store.lastHistoryId (jsGet data "historyId")) store =
          (none, store, ptr) := by
        simp [pullEmailsSince, hloop]
      exact ⟨.plain ⟨false, none⟩, by simp [processNewEmails, hv, hpull]⟩
    | some p =>
      obtain ⟨es, c⟩ := p
      have hpull : pullEmailsSince env
          (effectiveCursor store.lastHistoryId (jsGet data "historyId")) store =
          (some es, ⟨some c⟩, ptr ++ [.writeCursor c]) := by
        simp [pullEmailsSince, hloop]
      by_cases hemp : es.isEmpty
      · exact ⟨.plain ⟨true, some MESSAGES.noProcess⟩,
          by simp [processNewEmails, hv, hpull, hemp]⟩
      · obtain ⟨values, hvalues⟩ := rowsOfEmails_ok es (by
          intro e he
          obtain ⟨id, hid⟩ := pullLoop_mem env.getMsg
            (effectiveCursor store.lastHistoryId (jsGet data "historyId")) env.pages
            (effectiveCursor store.lastHistoryId (jsGet data "historyId")) es c ptr hloop e he
          exact hmsg id e hid)
        exact ⟨.plain ⟨true, some MESSAGES.processSuccess⟩,
          by simp [processNewEmails, hv, hpull, hemp, hvalues, hsheet]⟩
  · have hv2 : validData data = false := by simpa using hv
    exact ⟨.textOutput (stringifyResponse ⟨false, some MESSAGES.invalidData⟩),
      by rw [processNewEmails_invalid env data store hv2]⟩

/-- C8 counterexample: `doPost` has no try/catch around `JSON.parse`, so a
malformed request body raises an unhandled parse error to the caller instead
of returning a structured `{success, message}` result. -/
theorem doPost_malformed_body_raises_cex :
    doPost envOnePage "key" ⟨none⟩ RawBody.malformed = Except.error () := rfl

/-- C8 (amended): for every request body that parses as JSON — provided the
sheet write does not throw and resolvable messages carry payloads — `doPost`
returns a JSON text without raising; a wrong API key yields the invalid-key
`{success, message}` JSON and an unknown task the invalid-task one (the
invalid-data branch instead serializes a TextOutput, producing "\x7b\x7d").
A malformed body, by contrast, raises the parse error to the caller. -/
theorem doPost_wellformed_structured (env : Env) (apiKey : String) (store : Store)
    (v : JSValue)
    (hsheet : env.sheetFails = false)
    (hmsg : ∀ id e, env.getMsg id = Except.ok e → e.payload.isSome = true) :
    (∃ out, doPost env apiKey store (RawBody.wellFormed v) = Except.ok out) ∧
    (jsStrictEqString (jsGet v "apiKey") apiKey = false →
      doPost env apiKey store (RawBody.wellFormed v) =
        Except.ok (stringifyResponse ⟨false, some MESSAGES.invalidApiKey⟩, store, [])) ∧
    (jsStrictEqString (jsGet v "apiKey") apiKey = true →
      jsStrictEqString (jsGet v "task") "processNewEmails" = false →
      doPost env apiKey store (RawBody.wellFormed v) =
        Except.ok (stringifyResponse ⟨false, some MESSAGES.invalidTask⟩, store, [])) := by
  refine ⟨?_, ?_, ?_⟩
  · by_cases hkey : jsStrictEqString (jsGet v "apiKey") apiKey = true
    · by_cases htask : jsStrictEqString (jsGet v "task") "processNewEmails" = true
      · obtain ⟨r, hr⟩ := processNewEmails_no_throw env (jsGet v "data") store hsheet hmsg
        rcases hrun : processNewEmails env (jsGet v "data") store with ⟨res, st, tr⟩
        rw [hrun] at hr
        simp only at hr
        subst hr
        exact ⟨(stringifyHandlerResult r, st, tr),
          by simp [doPost, jsonParse, hkey, htask, hrun]⟩
      · have htask2 : jsStrictEqString (jsGet v "task") "processNewEmails" = false := by
          simpa using htask
        exact ⟨(stringifyResponse ⟨false, some MESSAGES.invalidTask⟩, store, []),
          by simp [doPost, jsonParse, hkey, htask2]⟩
    · have hkey2 : jsStrictEqString (jsGet v "apiKey") apiKey = false := by simpa using hkey
      exact ⟨(stringifyResponse ⟨false, some MESSAGES.invalidApiKey⟩, store, []),
        by simp [doPost, jsonParse, hkey2]⟩
  · intro hkey2
    simp [doPost, jsonParse, hkey2]
  · intro hkey htask2
    simp [doPost, jsonParse, hkey, htask2]

/-- A well-formed request body with the right key and task but an invalid
data object. -/
def bodyGoodKey : JSValue :=
  .jobj [("apiKey", .jstr "k"), ("task", .jstr "processNewEmails"), ("data", .jnull)]

/-- Witness: a well-formed request against the failing-listing environment
returns without raising. -/
theorem doPost_wellformed_structured_witness :
    envListingFails.sheetFails = false ∧
    ((∃ out, doPost envListingFails "k" ⟨none⟩ (RawBody.wellFormed bodyGoodKey) =
        Except.ok out) ∧
      (jsStrictEqString (jsGet bodyGoodKey "apiKey") "k" = false →
        doPost envListingFails "k" ⟨none⟩ (RawBody.wellFormed bodyGoodKey) =
          Except.ok (stringifyResponse ⟨false, some MESSAGES.invalidApiKey⟩, ⟨none⟩, [])) ∧
      (jsStrictEqString (jsGet bodyGoodKey "apiKey") "k" = true →
        jsStrictEqString (jsGet bodyGoodKey "task") "processNewEmails" = false →
        doPost envListingFails "k" ⟨none⟩ (RawBody.wellFormed bodyGoodKey) =
          Except.ok (stringifyResponse ⟨false, some MESSAGES.invalidTask⟩, ⟨none⟩, []))) :=
  ⟨rfl,
    doPost_wellformed_structured envListingFails "k" ⟨none⟩ bodyGoodKey rfl
      (fun _ _ h => Except.noConfusion h)⟩

end GmailListener
